import Mathlib

/-!
Shallow embedding of the conversation session manager of the `posm-chat`
single-page chat client (`src/posm-chat/src/App.tsx`,
`src/posm-chat/src/hooks/useSaveConversation.ts`,
`src/posm-chat/src/components/AiMessage/index.tsx`,
`src/posm-chat/src/utils/api.ts`).

React `useState`/`useLocalStorage` cells are gathered into one `AppState`
record; each event handler of the source becomes a pure state-transformation
function.  Sequencing of queued `setX` calls inside one handler is modelled by
sequential record updates (functional updater calls see the previous update's
result, and plain values captured from the closure are read from the state at
entry, exactly as React delivers them).  `Date` values are epoch milliseconds
(`Nat`); values that may be either a `Date` object or a string (a message
`timestamp` after a JSON round trip) live in `TimeVal`.  Fields that are
optional in the TypeScript types (`likes?`, `liked?`, `isCurrent?`, …) are
`Option`s, with JavaScript truthiness made explicit.
-/

namespace PosmChat

/-- A JavaScript value that the source stores in a `timestamp` field: either a
`Date` object (epoch milliseconds) or a string (what `JSON.parse` yields for a
serialized `Date`). -/
inductive TimeVal where
  | date : Nat → TimeVal
  | str : String → TimeVal
deriving DecidableEq, Repr

/-- `types/chat.d.ts` `Message`. -/
structure Message where
  id : String
  question : String
  answer : String
  imageUrls : String
  timestamp : TimeVal
  role : String
  match_score : String
  confidence : String
  likes : Option Int := none
  dislikes : Option Int := none
  liked : Option Bool := none
  disliked : Option Bool := none
deriving DecidableEq, Repr

/-- `types/chat.d.ts` `SavedConversation`.  `timestamp`/`lastSaved` are always
written as fresh `Date` objects by the modelled operations, so they are kept as
epoch milliseconds. -/
structure SavedConversation where
  id : String
  title : String
  messages : List Message
  timestamp : Nat
  lastSaved : Nat
  isCurrent : Option Bool := none
deriving DecidableEq, Repr

/-- The React state cells of `App` that the session manager reads or writes. -/
structure AppState where
  question : String := ""
  chatHistory : List Message := []
  isLoading : Bool := false
  snackbarOpen : Bool := false
  snackbarMessage : String := ""
  currentTitle : String := "Untitled Chat"
  searchText : String := ""
  currentConversationId : Option String := none
  filteredConversations : List SavedConversation := []
  savedConversations : List SavedConversation := []
deriving DecidableEq, Repr

/-- JavaScript truthiness of a `string | null` value: `null` and `""` are
falsy. -/
def strTruthy : Option String → Bool
  | none => false
  | some s => !(s == "")

/-- JavaScript `x || 0` on an optional number field. -/
def intOrZero (x : Option Int) : Int := x.getD 0

/-- JavaScript truthiness of an optional boolean field. -/
def boolTruthy (x : Option Bool) : Bool := x.getD false

/-- Drop leading whitespace characters. -/
def dropLeadingWs : List Char → List Char
  | [] => []
  | c :: cs => if c.isWhitespace then dropLeadingWs cs else c :: cs

/-- JavaScript `s.trim()`: whitespace removed from both ends. -/
def jsTrim (s : String) : String :=
  ⟨((dropLeadingWs ((dropLeadingWs s.data).reverse)).reverse)⟩

/-- JavaScript `s.toLowerCase()`. -/
def toLowerStr (s : String) : String := ⟨s.data.map Char.toLower⟩

/-! ## Search filter (`App.tsx` lines 121–140) -/

/-- `pat` occurs at the start of `l`. -/
def leadsWith : List Char → List Char → Bool
  | [], _ => true
  | _ :: _, [] => false
  | p :: ps, c :: cs => p == c && leadsWith ps cs

/-- `pat` occurs as a contiguous run somewhere in `l`. -/
def hasSubList (pat : List Char) : List Char → Bool
  | [] => leadsWith pat []
  | c :: cs => leadsWith pat (c :: cs) || hasSubList pat cs

/-- JavaScript `s.includes(pat)`. -/
def strIncludes (s pat : String) : Bool := hasSubList pat.data s.data

/-- The `useEffect` reacting to `searchText`/`savedConversations`
(`App.tsx` lines 121–140): recomputes `filteredConversations`. -/
def searchEffect (s : AppState) : AppState :=
  if jsTrim s.searchText == "" then
    { s with filteredConversations := s.savedConversations }
  else
    { s with filteredConversations :=
        s.savedConversations.filter fun conversation =>
          strIncludes (toLowerStr conversation.title) (toLowerStr s.searchText) }

/-! ## Sending a message (`App.tsx` lines 164–233, `utils/api.ts` `sendQuestion`) -/

/-- One entry of the array that `sendQuestion` resolves with (`api.ts` lines
53–78): `text_content`/`image_sas_url` may be `undefined`, the other two fields
are always strings there. -/
structure ResponseItem where
  text_content : Option String
  image_sas_url : Option String
  match_score : String
  confidence : String
deriving DecidableEq, Repr

/-- The value the awaited `sendQuestion` call resolves with, as `App.tsx`
discriminates it: an array of items, or any non-array value. -/
inductive ApiResponse where
  | arr : List ResponseItem → ApiResponse
  | nonArray : ApiResponse
deriving DecidableEq, Repr

/-- The fixed fallback answer text of `App.tsx` line 214. -/
def fallbackAnswer : String := "I'm sorry, I don't have an answer for that."

/-- The snackbar text of `App.tsx` line 228. -/
def sendFailureText : String := "Failed to send message. Please try again."

/-- The user message built at `App.tsx` lines 172–181.  `nowId` is
`Date.now().toString()` and `now` the `new Date()` timestamp. -/
def mkUserMessage (newQuestion nowId : String) (now : Nat) : Message :=
  { id := nowId, question := newQuestion, answer := "", imageUrls := "",
    timestamp := .date now, role := "user", match_score := "", confidence := "" }

/-- `items.map((item, index) => f index item)` with explicit indices. -/
def mapWithIndex (f : Nat → α → β) : Nat → List α → List β
  | _, [] => []
  | i, a :: as => f i a :: mapWithIndex f (i + 1) as

/-- The `aiMessages` list built at `App.tsx` lines 192–221 from the response
and the just-appended user message. -/
def aiMessagesOf (userMessage : Message) (now : Nat) : ApiResponse → List Message
  | .arr items =>
      mapWithIndex (fun index item =>
        { userMessage with
          id := userMessage.id ++ "-ai-" ++ toString index,
          question := "",
          answer := item.text_content.getD "",
          imageUrls := item.image_sas_url.getD "",
          timestamp := .date now,
          role := "assistant",
          match_score := item.match_score,
          confidence := item.confidence }) 0 items
  | .nonArray =>
      [{ userMessage with
         id := userMessage.id ++ "-ai",
         question := "",
         answer := fallbackAnswer,
         imageUrls := "",
         timestamp := .date now,
         role := "assistant",
         match_score := "",
         confidence := "" }]

/-- `handleSendMessage` (`App.tsx` lines 164–233).  The awaited `sendQuestion`
call either resolves (`Except.ok`) or rejects (`Except.error`); the `catch`
block makes the handler total, so the embedding returns a plain state. -/
def handleSendMessage (s : AppState) (nowId : String) (now : Nat)
    (outcome : Except Unit ApiResponse) : AppState :=
  if jsTrim s.question == "" || s.isLoading then s
  else
    let newQuestion := jsTrim s.question
    let userMessage := mkUserMessage newQuestion nowId now
    let s1 := { s with isLoading := true,
                       chatHistory := s.chatHistory ++ [userMessage],
                       question := "" }
    let s2 :=
      match outcome with
      | .ok response =>
          { s1 with chatHistory := s1.chatHistory ++ aiMessagesOf userMessage now response }
      | .error _ =>
          { s1 with snackbarMessage := sendFailureText, snackbarOpen := true }
    { s2 with isLoading := false }

/-! ## Saving a conversation (`hooks/useSaveConversation.ts`) -/

/-- The callback returned by `useSaveConversation` (lines 24–49).  `titleArg`
is the `currentTitle` prop the hook instance was created with, `freshId` is
`Date.now().toString()` and `now` the `new Date()` timestamp (the source calls
`new Date()` twice in the same tick). -/
def saveConversation (s : AppState) (titleArg : String) (now : Nat)
    (freshId : String) : AppState :=
  if s.chatHistory.length == 0 then s
  else
    let theId := match s.currentConversationId with
      | some i => if i == "" then freshId else i
      | none => freshId
    let newConv : SavedConversation :=
      { id := theId, title := titleArg, messages := s.chatHistory,
        timestamp := now, lastSaved := now, isCurrent := none }
    if strTruthy s.currentConversationId then
      { s with
        savedConversations := s.savedConversations.map (fun convo =>
          if convo.id == newConv.id then newConv else convo),
        currentConversationId := some newConv.id }
    else
      { s with savedConversations := newConv :: s.savedConversations,
               currentConversationId := some newConv.id }

/-- The `title` value of `App.tsx` lines 337–339 (the `currentTitle` prop of
the `saveCurrentConversation` hook instance). -/
def storeTitle (s : AppState) : String :=
  if strTruthy s.currentConversationId then
    match s.savedConversations.find? (fun convo => some convo.id == s.currentConversationId) with
    | some convo => if convo.title == "" then "Untitled" else convo.title
    | none => "Untitled"
  else "Untitled"

/-! ## Loading and switching (`App.tsx` lines 379–418) -/

/-- `handleLoadConversation` (`App.tsx` lines 400–418).  The guard compares
against the `currentConversationId` captured by the handler's closure, i.e. the
value at entry. -/
def handleLoadConversation (s : AppState) (conversation : SavedConversation) : AppState :=
  let old := s.currentConversationId
  let s1 := { s with currentConversationId := some conversation.id }
  if some conversation.id ≠ old then
    { s1 with chatHistory := conversation.messages,
              currentConversationId := some conversation.id,
              savedConversations := s1.savedConversations.map fun convo =>
                { convo with isCurrent := some (convo.id == conversation.id) } }
  else s1

/-- The bare identifier `length` at `App.tsx` line 381 resolves to the DOM
global `window.length` — the number of frames in the page, which is `0` for
this frameless application. -/
def windowLength : Nat := 0

/-- The `?.messages.length || 0` lookup of `App.tsx` line 382. -/
def storedCount (s : AppState) : Nat :=
  ((s.savedConversations.find? fun convo =>
      some convo.id == s.currentConversationId).map
    fun convo => convo.messages.length).getD 0

/-- `handleClickConversation` (`App.tsx` lines 379–397): commit-before-switch.
`now`/`freshId` feed whichever save callback runs. -/
def handleClickConversation (s : AppState) (conversation : SavedConversation)
    (now : Nat) (freshId : String) : AppState :=
  let s1 :=
    if s.chatHistory.length > 0 ∧ s.chatHistory.length > windowLength ∧
        s.currentConversationId ≠ some conversation.id then
      if s.chatHistory.length > storedCount s then
        match s.currentConversationId with
        | some _ => saveConversation s (storeTitle s) now freshId
        | none => saveConversation s s.currentTitle now freshId
      else s
    else s
  handleLoadConversation s1 conversation

/-! ## Delete, new chat, startup restore (`App.tsx` lines 237–255, 420–500) -/

/-- `handleDeleteConversation` (`App.tsx` lines 420–429). -/
def handleDeleteConversation (s : AppState) (id : String) : AppState :=
  let s1 := { s with savedConversations :=
      s.savedConversations.filter fun convo => !(convo.id == id) }
  if s1.currentConversationId == some id then
    { s1 with chatHistory := [], currentConversationId := none }
  else s1

/-- `sortConversationsByTimestamp` (`App.tsx` lines 496–500): stable sort,
descending by timestamp (the comparator returns `b - a`). -/
def sortConversationsByTimestamp (l : List SavedConversation) : List SavedConversation :=
  l.mergeSort fun a b => decide (b.timestamp ≤ a.timestamp)

/-- `handleNewChat` (`App.tsx` lines 432–493).  `genTitle` is the resolved
`generateAutoTitle` value, `newId` is `Date.now().toString()`.  The branch
conditions read the `currentConversationId`/`chatHistory` closure values from
the state at entry; the queued store updates compose sequentially. -/
def handleNewChat (s : AppState) (genTitle : String) (now : Nat)
    (newId : String) : AppState :=
  let oldId := s.currentConversationId
  let hist := s.chatHistory
  let s1 := { s with
              currentConversationId := none,
              savedConversations := s.savedConversations.map
                (fun (convo : SavedConversation) => { convo with isCurrent := some false }) }
  let s2 :=
    if hist.length > 0 then
      if strTruthy oldId then
        { s1 with
          savedConversations := s1.savedConversations.map
            (fun (convo : SavedConversation) =>
              if some convo.id == oldId then
                { convo with messages := hist, timestamp := now, lastSaved := now }
              else convo) }
      else
        let inserted :=
          ({ id := newId, title := genTitle, messages := hist, timestamp := now,
             lastSaved := now, isCurrent := some false } : SavedConversation) ::
          s1.savedConversations.filter (fun convo => !(convo.id == newId))
        { s1 with savedConversations := sortConversationsByTimestamp inserted }
    else
      { s1 with
        savedConversations := s1.savedConversations.map
          (fun (convo : SavedConversation) => { convo with isCurrent := some false }) }
  { s2 with chatHistory := [], currentConversationId := none }

/-- The startup-restore `useEffect` of `App.tsx` lines 237–255 (run with
`initializedRef.current = false`). -/
def restoreOnStartup (s : AppState) : AppState :=
  if strTruthy s.currentConversationId ∧ s.savedConversations.length > 0 then
    match s.savedConversations.find? (fun c => some c.id == s.currentConversationId) with
    | some conversation =>
        { s with chatHistory := conversation.messages,
                 savedConversations := s.savedConversations.map fun convo =>
                   { convo with isCurrent := some (convo.id == conversation.id) } }
    | none => s
  else s

/-! ## Title generation (`App.tsx` lines 142–162 and 356–363) -/

/-- `generateAutoTitle` (`App.tsx` lines 142–162).  `timeStr` models
`new Date(timestamp).toLocaleTimeString()`; `apiResult` is the awaited
`getTitle` call (resolved title or rejection). -/
def generateAutoTitle (messages : List Message) (timeStr : String)
    (apiResult : Except Unit String) : String :=
  match messages with
  | [] => "Untitled Chat"
  | firstMessage :: _ =>
      if firstMessage.question == "" then "Chat on " ++ timeStr
      else
        match apiResult with
        | .ok title => title
        | .error _ => "Chat on " ++ timeStr

/-- What the `useEffect` of `App.tsx` lines 356–363 does when an issued
`generateAutoTitle` promise resolves: `setCurrentTitle(title)` — applied
unconditionally, with no record of which conversation the request was issued
for. -/
def applyTitleResolution (s : AppState) (resolvedTitle : String) : AppState :=
  { s with currentTitle := resolvedTitle }

/-- Modelled from the spec: the tagged stale-rejecting resolution handler the
specification describes ("every invocation is tagged with the
session/conversation id it was generated for; the Session Controller must
discard a resolved title if the tag no longer matches the currently active
session").  No such handler exists in the source; this definition follows the
spec's words, for comparison with `applyTitleResolution`. -/
def applyTitleResolutionTagged (s : AppState) (tag : Option String)
    (resolvedTitle : String) : AppState :=
  if s.currentConversationId == tag then { s with currentTitle := resolvedTitle }
  else s

/-! ## Like / dislike (`components/AiMessage/index.tsx` lines 33–71) -/

/-- The mutation `handleLike` performs on the clicked message
(`AiMessage/index.tsx` lines 38–49). -/
def handleLikeMsg (m : Message) : Message :=
  if boolTruthy m.liked then
    { m with likes := some (intOrZero m.likes - 1), liked := some false }
  else
    let m1 := { m with likes := some (intOrZero m.likes + 1) }
    let m2 :=
      if boolTruthy m1.disliked then
        { m1 with dislikes := some (intOrZero m1.dislikes - 1), disliked := some false }
      else m1
    { m2 with liked := some true }

/-- The mutation `handleDislike` performs on the clicked message
(`AiMessage/index.tsx` lines 58–69). -/
def handleDislikeMsg (m : Message) : Message :=
  if boolTruthy m.disliked then
    { m with dislikes := some (intOrZero m.dislikes - 1), disliked := some false }
  else
    let m1 := { m with dislikes := some (intOrZero m.dislikes + 1) }
    let m2 :=
      if boolTruthy m1.liked then
        { m1 with likes := some (intOrZero m1.likes - 1), liked := some false }
      else m1
    { m2 with disliked := some true }

/-- `handleLike(index)` on the reply list (`AiMessage/index.tsx` lines 34–51):
the message at `index` is updated in place, the rest are untouched. -/
def handleLike (messages : List Message) (index : Nat) : List Message :=
  match messages.get? index with
  | some targetMsg => messages.set index (handleLikeMsg targetMsg)
  | none => messages

/-- `handleDislike(index)` on the reply list (`AiMessage/index.tsx` lines
54–71). -/
def handleDislike (messages : List Message) (index : Nat) : List Message :=
  match messages.get? index with
  | some targetMsg => messages.set index (handleDislikeMsg targetMsg)
  | none => messages

/-! ## Durable snapshot (`App.tsx` lines 507–537)

`localStorage` holds the `JSON.stringify` text of the active message list;
since `JSON.parse ∘ JSON.stringify` is the identity on the underlying JSON
value, the stored key is modelled as that JSON value directly.  Serializing a
`Date` yields its ISO string (`Date.prototype.toJSON`), modelled by an
abstract renderer `iso : Nat → String`. -/

/-- A JSON value. -/
inductive Json where
  | str : String → Json
  | num : Int → Json
  | jbool : Bool → Json
  | null : Json
  | arr : List Json → Json
  | obj : List (String × Json) → Json

/-- `JSON.stringify` on a `timestamp` field: a `Date` serializes to its ISO
string, a string stays itself. -/
def encTime (iso : Nat → String) : TimeVal → Json
  | .date ms => .str (iso ms)
  | .str s => .str s

/-- `JSON.stringify` on one `Message` object: string fields verbatim, the
`timestamp` via `encTime`, optional fields present only when defined
(`JSON.stringify` drops `undefined`-valued keys). -/
def encodeMessage (iso : Nat → String) (m : Message) : Json :=
  .obj ([("id", .str m.id), ("question", .str m.question),
         ("answer", .str m.answer), ("imageUrls", .str m.imageUrls),
         ("timestamp", encTime iso m.timestamp), ("role", .str m.role),
         ("match_score", .str m.match_score), ("confidence", .str m.confidence)]
    ++ (match m.likes with | some n => [("likes", Json.num n)] | none => [])
    ++ (match m.dislikes with | some n => [("dislikes", Json.num n)] | none => [])
    ++ (match m.liked with | some b => [("liked", Json.jbool b)] | none => [])
    ++ (match m.disliked with | some b => [("disliked", Json.jbool b)] | none => []))

/-- Field lookup on a parsed JSON object. -/
def jsonGet (j : Json) (key : String) : Option Json :=
  match j with
  | .obj kvs => (kvs.find? fun kv => kv.1 == key).map fun kv => kv.2
  | _ => none

/-- Reading a string-typed field off a parsed object, as the untyped cast in
the source does. -/
def jsonStr (o : Option Json) : String :=
  match o with
  | some (.str s) => s
  | _ => ""

/-- The parsed JSON object viewed as a `Message` (the source casts
`JSON.parse` output to `Message[]` without conversion). -/
def decodeMessage (j : Json) : Message :=
  { id := jsonStr (jsonGet j "id"),
    question := jsonStr (jsonGet j "question"),
    answer := jsonStr (jsonGet j "answer"),
    imageUrls := jsonStr (jsonGet j "imageUrls"),
    timestamp := .str (jsonStr (jsonGet j "timestamp")),
    role := jsonStr (jsonGet j "role"),
    match_score := jsonStr (jsonGet j "match_score"),
    confidence := jsonStr (jsonGet j "confidence"),
    likes := match jsonGet j "likes" with | some (.num n) => some n | _ => none,
    dislikes := match jsonGet j "dislikes" with | some (.num n) => some n | _ => none,
    liked := match jsonGet j "liked" with | some (.jbool b) => some b | _ => none,
    disliked := match jsonGet j "disliked" with | some (.jbool b) => some b | _ => none }

/-- The two `localStorage` keys the snapshot uses; `none` models an absent
key (`getItem` returning `null`).  `currentChatHistory` holds a JSON array. -/
structure DurableStorage where
  currentChatHistory : Option (List Json) := none
  currentConversationId : Option String := none

/-- The two `setItem` calls of `saveStateBeforeUnload` (`App.tsx` lines
508–510): the serialized message list, and the active id with the `'null'`
sentinel for a falsy id. -/
def saveStateBeforeUnload (iso : Nat → String) (s : AppState) : DurableStorage :=
  { currentChatHistory := some (s.chatHistory.map (encodeMessage iso)),
    currentConversationId := some (match s.currentConversationId with
      | some i => if i == "" then "null" else i
      | none => "null") }

/-- The startup `useEffect` of `App.tsx` lines 526–537: restores the message
list when the key is present and the id when it is present, truthy and not the
`'null'` sentinel. -/
def restoreFromStorage (store : DurableStorage) (s : AppState) : AppState :=
  let s1 := match store.currentChatHistory with
    | some js => { s with chatHistory := js.map decodeMessage }
    | none => s
  match store.currentConversationId with
  | some cid =>
      if !(cid == "") && !(cid == "null") then
        { s1 with currentConversationId := some cid }
      else s1
  | none => s1

/-! ## Search filter: claim C8 -/

/-- First conversation of the spec's search example. -/
def aperolConv : SavedConversation :=
  { id := "1", title := "Aperol Spritz", messages := [], timestamp := 0, lastSaved := 0 }

/-- Second conversation of the spec's search example. -/
def negroniConv : SavedConversation :=
  { id := "2", title := "Negroni Sbagliato", messages := [], timestamp := 0, lastSaved := 0 }

/-- Third conversation of the spec's search example. -/
def campariConv : SavedConversation :=
  { id := "3", title := "Campari Soda", messages := [], timestamp := 0, lastSaved := 0 }

/-- The concrete search-example state. -/
def searchExampleState : AppState :=
  { searchText := "apero",
    savedConversations := [aperolConv, negroniConv, campariConv] }

/-- Claim C8: the filtered view contains exactly the conversations whose title
contains the query case-insensitively (titles only — the predicate never reads
message bodies); an empty or whitespace-only query yields the full list
unmodified in store order; and on the titles "Aperol Spritz",
"Negroni Sbagliato", "Campari Soda" with query "apero", exactly the first is
returned. -/
theorem search_filter_titles (s : AppState) :
    (jsTrim s.searchText = "" →
      (searchEffect s).filteredConversations = s.savedConversations) ∧
    (jsTrim s.searchText ≠ "" →
      ∀ convo, convo ∈ (searchEffect s).filteredConversations ↔
        convo ∈ s.savedConversations ∧
          strIncludes (toLowerStr convo.title) (toLowerStr s.searchText) = true) ∧
    ((searchEffect searchExampleState).filteredConversations = [aperolConv]) := by
  refine ⟨fun h => ?_, fun h convo => ?_, by decide⟩
  · simp [searchEffect, h]
  · have hb : (jsTrim s.searchText == "") = false := beq_eq_false_iff_ne.mpr h
    simp [searchEffect, hb, List.mem_filter]

/-- A state whose search text is whitespace only. -/
def blankSearchState : AppState :=
  { searchText := "  ", savedConversations := [campariConv] }

/-- A state with an upper-case search text. -/
def upperSearchState : AppState :=
  { searchText := "SBAGLIATO", savedConversations := [aperolConv, negroniConv] }

/-- Witness for `search_filter_titles`: both guarded parts applied at concrete
inputs. -/
theorem search_filter_titles_witness :
    ((searchEffect blankSearchState).filteredConversations = [campariConv]) ∧
    (negroniConv ∈ (searchEffect upperSearchState).filteredConversations ↔
      negroniConv ∈ [aperolConv, negroniConv] ∧
        strIncludes (toLowerStr negroniConv.title) (toLowerStr "SBAGLIATO") = true) :=
  ⟨(search_filter_titles _).1 (by decide),
   (search_filter_titles _).2.1 (by decide) negroniConv⟩

/-! ## Stale title resolution: claim C2 -/

/-- A state in which conversation "B" is active, reached after a title request
was issued while conversation "A" was active. -/
def stateWithActiveB : AppState :=
  { currentConversationId := some "B", currentTitle := "Old transient title",
    savedConversations :=
      [{ id := "B", title := "Title of B", messages := [], timestamp := 0, lastSaved := 0,
         isCurrent := some true },
       { id := "A", title := "Title of A", messages := [], timestamp := 0, lastSaved := 0,
         isCurrent := some false }] }

/-- Claim C2 counterexample: the source's resolution handler carries no
conversation tag and does not discard a stale title — resolving a title issued
for conversation "A" while "B" is active changes the state (the transient
`currentTitle` is overwritten), and disagrees with the spec-modelled tagged
handler, which would leave the state unchanged. -/
theorem stale_title_not_discarded :
    applyTitleResolution stateWithActiveB "Title generated for A" ≠ stateWithActiveB ∧
    applyTitleResolutionTagged stateWithActiveB (some "A") "Title generated for A"
      = stateWithActiveB ∧
    applyTitleResolution stateWithActiveB "Title generated for A" ≠
      applyTitleResolutionTagged stateWithActiveB (some "A") "Title generated for A" := by
  refine ⟨?_, by decide, ?_⟩ <;> decide

/-- Claim C2 (amended): title resolutions are untagged and never discarded —
a resolution arriving after a switch still overwrites the transient
`currentTitle` — but it touches nothing else: the saved-conversation store (in
particular the switched-to conversation's stored title), the active id and the
active message list are unchanged by the resolution. -/
theorem title_resolution_untagged (s : AppState) (resolvedTitle : String) :
    (applyTitleResolution s resolvedTitle).currentTitle = resolvedTitle ∧
    (applyTitleResolution s resolvedTitle).savedConversations = s.savedConversations ∧
    (applyTitleResolution s resolvedTitle).currentConversationId = s.currentConversationId ∧
    (applyTitleResolution s resolvedTitle).chatHistory = s.chatHistory := by
  simp [applyTitleResolution]

/-! ## Sending: claims C4, C3, C10 -/

/-- Claim C4: a send whose upstream answer call throws is caught locally — the
handler (total by construction, so no exception escapes) surfaces the failure
only as the snackbar notification, the active message list still ends with the
appended user message, the in-flight guard is cleared, and nothing else of the
session state is altered. -/
theorem send_failure_atomic (s : AppState) (nowId : String) (now : Nat)
    (hq : jsTrim s.question ≠ "") (hl : s.isLoading = false) :
    (handleSendMessage s nowId now (Except.error ())).chatHistory
        = s.chatHistory ++ [mkUserMessage (jsTrim s.question) nowId now] ∧
    (handleSendMessage s nowId now (Except.error ())).isLoading = false ∧
    (handleSendMessage s nowId now (Except.error ())).snackbarOpen = true ∧
    (handleSendMessage s nowId now (Except.error ())).snackbarMessage = sendFailureText ∧
    (handleSendMessage s nowId now (Except.error ())).savedConversations
        = s.savedConversations ∧
    (handleSendMessage s nowId now (Except.error ())).currentConversationId
        = s.currentConversationId ∧
    (handleSendMessage s nowId now (Except.error ())).currentTitle = s.currentTitle := by
  have hb : (jsTrim s.question == "") = false := beq_eq_false_iff_ne.mpr hq
  simp [handleSendMessage, hb, hl]

/-- A state holding a typed, not yet sent question. -/
def pendingSendState : AppState := { question := " hello " }

/-- Witness for `send_failure_atomic` at a concrete state. -/
theorem send_failure_atomic_witness :
    (handleSendMessage pendingSendState "77" 5 (Except.error ())).chatHistory
      = pendingSendState.chatHistory
          ++ [mkUserMessage (jsTrim pendingSendState.question) "77" 5] :=
  (send_failure_atomic pendingSendState "77" 5 (by decide) (by decide)).1

/-- Claim C3 counterexample: a send whose upstream answer call fails (the
promise rejects) appends zero assistant messages — not exactly one apology
message — so the user's turn is left unanswered, contradicting the claim at
this input. -/
theorem fallback_missing_on_failure :
    ¬ (((handleSendMessage { question := "hello" } "1" 0
          (Except.error ())).chatHistory.filter
            (fun m => m.role == "assistant")).length = 1) ∧
    ((handleSendMessage { question := "hello" } "1" 0
        (Except.error ())).chatHistory.filter
          (fun m => m.role == "assistant")).length = 0 := by
  constructor <;> decide

/-- Claim C3 (amended): the fixed apology is appended — as exactly one
assistant message, after the user message — only when the upstream call
succeeds with a non-array response; a send whose call throws, or whose call
returns an empty array, appends no assistant message at all and leaves the
turn unanswered. -/
theorem fallback_reply_nonarray_only (s : AppState) (nowId : String) (now : Nat)
    (hq : jsTrim s.question ≠ "") (hl : s.isLoading = false) :
    (handleSendMessage s nowId now (Except.ok ApiResponse.nonArray)).chatHistory
      = s.chatHistory ++ [mkUserMessage (jsTrim s.question) nowId now,
          { mkUserMessage (jsTrim s.question) nowId now with
            id := nowId ++ "-ai", question := "", answer := fallbackAnswer,
            role := "assistant" }] ∧
    (handleSendMessage s nowId now (Except.error ())).chatHistory
      = s.chatHistory ++ [mkUserMessage (jsTrim s.question) nowId now] ∧
    (handleSendMessage s nowId now (Except.ok (ApiResponse.arr []))).chatHistory
      = s.chatHistory ++ [mkUserMessage (jsTrim s.question) nowId now] := by
  have hb : (jsTrim s.question == "") = false := beq_eq_false_iff_ne.mpr hq
  refine ⟨?_, ?_, ?_⟩ <;>
    simp [handleSendMessage, hb, hl, aiMessagesOf, mapWithIndex, mkUserMessage]

/-- Witness for `fallback_reply_nonarray_only` at a concrete state. -/
theorem fallback_reply_nonarray_only_witness :
    (handleSendMessage pendingSendState "9" 2 (Except.ok ApiResponse.nonArray)).chatHistory
      = pendingSendState.chatHistory
          ++ [mkUserMessage (jsTrim pendingSendState.question) "9" 2,
              { mkUserMessage (jsTrim pendingSendState.question) "9" 2 with
                id := "9" ++ "-ai", question := "", answer := fallbackAnswer,
                role := "assistant" }] :=
  (fallback_reply_nonarray_only pendingSendState "9" 2 (by decide) (by decide)).1

/-- `mapWithIndex` preserves length. -/
theorem mapWithIndex_length (f : Nat → α → β) (k : Nat) (l : List α) :
    (mapWithIndex f k l).length = l.length := by
  induction l generalizing k with
  | nil => rfl
  | cons a as ih => simp [mapWithIndex, ih]

/-- Element of a `mapWithIndex` at position `i`. -/
theorem mapWithIndex_get (f : Nat → α → β) (k : Nat) (l : List α) (i : Nat)
    (h : i < l.length) (h2 : i < (mapWithIndex f k l).length) :
    (mapWithIndex f k l).get ⟨i, h2⟩ = f (k + i) (l.get ⟨i, h⟩) := by
  induction l generalizing k i with
  | nil => cases h
  | cons a as ih =>
      cases i with
      | zero => simp [mapWithIndex]
      | succ n =>
          simp only [mapWithIndex, List.get, List.length_cons] at *
          rw [ih (k + 1) n (Nat.lt_of_succ_lt_succ h) (by simpa [mapWithIndex_length] using h2)]
          congr 1
          omega

/-- Claim C10: on a successful send, the appended assistant messages follow the
user message, in the order the response items were returned, pairing the i-th
reply with the i-th item; each has role `assistant`, an empty question, and an
id formed from the initiating user message's id followed by `-ai` (with a
per-item index for an array response), so the user-to-reply grouping is
recoverable from the id prefix alone. -/
theorem assistant_id_encodes_turn (s : AppState) (nowId : String) (now : Nat)
    (items : List ResponseItem)
    (hq : jsTrim s.question ≠ "") (hl : s.isLoading = false) :
    (handleSendMessage s nowId now (Except.ok (ApiResponse.arr items))).chatHistory
      = s.chatHistory ++ mkUserMessage (jsTrim s.question) nowId now
          :: aiMessagesOf (mkUserMessage (jsTrim s.question) nowId now) now
               (ApiResponse.arr items) ∧
    (aiMessagesOf (mkUserMessage (jsTrim s.question) nowId now) now
        (ApiResponse.arr items)).length = items.length ∧
    (∀ i (hi : i < items.length)
        (hi2 : i < (aiMessagesOf (mkUserMessage (jsTrim s.question) nowId now) now
          (ApiResponse.arr items)).length),
      ((aiMessagesOf (mkUserMessage (jsTrim s.question) nowId now) now
          (ApiResponse.arr items)).get ⟨i, hi2⟩).role = "assistant" ∧
      ((aiMessagesOf (mkUserMessage (jsTrim s.question) nowId now) now
          (ApiResponse.arr items)).get ⟨i, hi2⟩).question = "" ∧
      ((aiMessagesOf (mkUserMessage (jsTrim s.question) nowId now) now
          (ApiResponse.arr items)).get ⟨i, hi2⟩).id
        = nowId ++ "-ai-" ++ toString i ∧
      ((aiMessagesOf (mkUserMessage (jsTrim s.question) nowId now) now
          (ApiResponse.arr items)).get ⟨i, hi2⟩).answer
        = (items.get ⟨i, hi⟩).text_content.getD "") ∧
    (∀ m ∈ aiMessagesOf (mkUserMessage (jsTrim s.question) nowId now) now
        (ApiResponse.arr items),
      ∃ rest, m.id = nowId ++ ("-ai" ++ rest)) ∧
    ((aiMessagesOf (mkUserMessage (jsTrim s.question) nowId now) now
        ApiResponse.nonArray).map (fun m => m.id) = [nowId ++ "-ai"]) := by
  have hb : (jsTrim s.question == "") = false := beq_eq_false_iff_ne.mpr hq
  refine ⟨?_, ?_, ?_, ?_, ?_⟩
  · simp [handleSendMessage, hb, hl]
  · simp [aiMessagesOf, mapWithIndex_length]
  · intro i hi hi2
    simp only [aiMessagesOf]
    rw [mapWithIndex_get _ 0 items i hi (by simpa [aiMessagesOf] using hi2)]
    simp [mkUserMessage]
  · intro m hm
    obtain ⟨⟨i, hi2⟩, hget⟩ := List.mem_iff_get.mp hm
    have hi : i < items.length := by
      simpa [aiMessagesOf, mapWithIndex_length] using hi2
    refine ⟨"-" ++ toString i, ?_⟩
    rw [← hget]
    simp only [aiMessagesOf]
    rw [mapWithIndex_get _ 0 items i hi (by simpa [aiMessagesOf] using hi2)]
    simp only [mkUserMessage, Nat.zero_add]
    rw [show ("-ai-" : String) = "-ai" ++ "-" from by decide,
        String.append_assoc, String.append_assoc]
  · simp [aiMessagesOf, mkUserMessage]

/-- Witness for `assistant_id_encodes_turn` at a concrete state and a one-item
response. -/
theorem assistant_id_encodes_turn_witness :
    (aiMessagesOf (mkUserMessage (jsTrim pendingSendState.question) "42" 3) 3
        (ApiResponse.arr [{ text_content := some "sure", image_sas_url := none,
                            match_score := "0.9", confidence := "high" }])).length
      = ([{ text_content := some "sure", image_sas_url := none,
            match_score := "0.9", confidence := "high" }] : List ResponseItem).length :=
  (assistant_id_encodes_turn pendingSendState "42" 3 _ (by decide) (by decide)).2.1

/-! ## Like/dislike: claim C9 -/

/-- Invariant of the like/dislike data of one message, true of freshly created
messages (whose optional fields are all absent) and preserved by both toggles:
flags are mutually exclusive, counters are non-negative, and a set flag
accounts for at least one unit of its counter. -/
def reactionInv (m : Message) : Prop :=
  ¬(boolTruthy m.liked = true ∧ boolTruthy m.disliked = true) ∧
  0 ≤ intOrZero m.likes ∧ 0 ≤ intOrZero m.dislikes ∧
  (boolTruthy m.liked = true → 1 ≤ intOrZero m.likes) ∧
  (boolTruthy m.disliked = true → 1 ≤ intOrZero m.dislikes)

/-- Claim C9: toggling like on a currently-disliked message sets the like
flag, clears the dislike flag, increments the like counter by exactly one and
decrements the dislike counter by exactly one (and symmetrically for dislike
on a liked message); after either toggle the flags are never simultaneously
set; and both toggles preserve `reactionInv`, so the counters stay
non-negative and are never decremented below zero.  The list-level handlers
update exactly the clicked index. -/
theorem like_dislike_exclusive (m : Message) (hm : reactionInv m) :
    (boolTruthy m.disliked = true →
      boolTruthy (handleLikeMsg m).liked = true ∧
      boolTruthy (handleLikeMsg m).disliked = false ∧
      intOrZero (handleLikeMsg m).likes = intOrZero m.likes + 1 ∧
      intOrZero (handleLikeMsg m).dislikes = intOrZero m.dislikes - 1) ∧
    (boolTruthy m.liked = true →
      boolTruthy (handleDislikeMsg m).disliked = true ∧
      boolTruthy (handleDislikeMsg m).liked = false ∧
      intOrZero (handleDislikeMsg m).dislikes = intOrZero m.dislikes + 1 ∧
      intOrZero (handleDislikeMsg m).likes = intOrZero m.likes - 1) ∧
    ¬(boolTruthy (handleLikeMsg m).liked = true ∧
      boolTruthy (handleLikeMsg m).disliked = true) ∧
    ¬(boolTruthy (handleDislikeMsg m).liked = true ∧
      boolTruthy (handleDislikeMsg m).disliked = true) ∧
    reactionInv (handleLikeMsg m) ∧ reactionInv (handleDislikeMsg m) ∧
    (∀ (msgs : List Message) (i : Nat), msgs.get? i = some m →
      (handleLike msgs i) = msgs.set i (handleLikeMsg m) ∧
      (handleDislike msgs i) = msgs.set i (handleDislikeMsg m)) := by
  obtain ⟨hex, hlk, hdk, hl1, hd1⟩ := hm
  refine ⟨?_, ?_, ?_, ?_, ?_, ?_, ?_⟩
  · intro hd
    have hl : boolTruthy m.liked = false := by
      cases h : boolTruthy m.liked
      · rfl
      · exact absurd ⟨h, hd⟩ hex
    simp only [boolTruthy] at hl hd
    simp [handleLikeMsg, boolTruthy, intOrZero, hl, hd]
  · intro hl
    have hd : boolTruthy m.disliked = false := by
      cases h : boolTruthy m.disliked
      · rfl
      · exact absurd ⟨hl, h⟩ hex
    simp only [boolTruthy] at hl hd
    simp [handleDislikeMsg, boolTruthy, intOrZero, hl, hd]
  · cases h : m.liked.getD false <;> cases h2 : m.disliked.getD false <;>
      simp [handleLikeMsg, boolTruthy, intOrZero, h, h2]
  · cases h : m.liked.getD false <;> cases h2 : m.disliked.getD false <;>
      simp [handleDislikeMsg, boolTruthy, intOrZero, h, h2]
  · cases h : m.liked.getD false <;> cases h2 : m.disliked.getD false <;>
      simp_all [handleLikeMsg, reactionInv, boolTruthy, intOrZero] <;> omega
  · cases h : m.liked.getD false <;> cases h2 : m.disliked.getD false <;>
      simp_all [handleDislikeMsg, reactionInv, boolTruthy, intOrZero] <;> omega
  · intro msgs i hi
    rw [List.get?_eq_getElem?] at hi
    constructor <;> simp [handleLike, handleDislike, hi]

/-- A message that is currently disliked once. -/
def dislikedOnceMsg : Message :=
  { id := "5-ai", question := "", answer := "text", imageUrls := "",
    timestamp := .date 0, role := "assistant", match_score := "", confidence := "",
    dislikes := some 1, disliked := some true }

/-- Witness for `like_dislike_exclusive`: toggling like on a concrete
disliked-once message. -/
theorem like_dislike_exclusive_witness :
    boolTruthy (handleLikeMsg dislikedOnceMsg).liked = true ∧
    boolTruthy (handleLikeMsg dislikedOnceMsg).disliked = false ∧
    intOrZero (handleLikeMsg dislikedOnceMsg).likes
      = intOrZero dislikedOnceMsg.likes + 1 ∧
    intOrZero (handleLikeMsg dislikedOnceMsg).dislikes
      = intOrZero dislikedOnceMsg.dislikes - 1 :=
  (like_dislike_exclusive dislikedOnceMsg (by constructor <;> decide)).1 (by decide)

/-! ## Store invariants: claims C5, C6 -/

/-- The current-marker of a stored conversation (JavaScript truthiness: an
absent `isCurrent` reads as false). -/
def currentFlag (c : SavedConversation) : Bool := boolTruthy c.isCurrent

/-- At most one stored conversation carries the current-marker. -/
def atMostOneCurrent (l : List SavedConversation) : Prop :=
  l.countP (fun cv => currentFlag cv) ≤ 1

/-- `atMostOneCurrent` is decidable, so concrete stores can be checked by
evaluation. -/
instance atMostOneCurrentDecidable (l : List SavedConversation) :
    Decidable (atMostOneCurrent l) :=
  inferInstanceAs (Decidable (l.countP (fun cv => currentFlag cv) ≤ 1))

/-- The stored ids, in store order. -/
def storeIds (l : List SavedConversation) : List String := l.map (fun cv => cv.id)

/-- A map that keeps every id leaves `storeIds` unchanged. -/
theorem storeIds_map_keep (l : List SavedConversation)
    (g : SavedConversation → SavedConversation) (h : ∀ cv ∈ l, (g cv).id = cv.id) :
    storeIds (l.map g) = storeIds l := by
  simp only [storeIds, List.map_map]
  exact List.map_congr_left (by simpa using h)

/-- Setting the current-marker by id comparison marks at most one entry when
the stored ids are duplicate-free. -/
theorem countP_currentize_le_one (l : List SavedConversation) (tid : String)
    (hN : (storeIds l).Nodup) :
    (l.map fun cv => { cv with isCurrent := some (cv.id == tid) }).countP
      (fun cv => currentFlag cv) ≤ 1 := by
  rw [List.countP_map]
  have h1 : l.countP ((fun cv => currentFlag cv) ∘
      fun cv => { cv with isCurrent := some (cv.id == tid) }) = (storeIds l).count tid := by
    rw [List.count_eq_countP, storeIds, List.countP_map]
    rfl
  rw [h1]
  exact List.nodup_iff_count_le_one.mp hN tid

/-- Filtering cannot raise a `countP`. -/
theorem countP_filter_le (l : List SavedConversation)
    (p q : SavedConversation → Bool) :
    (l.filter q).countP p ≤ l.countP p := by
  rw [List.countP_filter]
  exact List.countP_mono_left (by simp_all)

/-- Replacing the entries matching an id by a record without the
current-marker cannot raise the number of marked entries. -/
theorem countP_replace_le (l : List SavedConversation) (nc : SavedConversation)
    (hnc : currentFlag nc = false) (tid : String) :
    (l.map fun convo => if convo.id == tid then nc else convo).countP
      (fun cv => currentFlag cv) ≤ l.countP (fun cv => currentFlag cv) := by
  rw [List.countP_map]
  apply List.countP_mono_left
  intro cv _ hcv
  by_cases hc : (cv.id == tid) = true
  · simp only [Function.comp, hc, if_true] at hcv
    rw [hnc] at hcv
    exact absurd hcv (by simp)
  · simpa [Function.comp, hc] using hcv

/-- Replacing the entries matching an id by a record carrying that id leaves
`storeIds` unchanged. -/
theorem storeIds_replace (l : List SavedConversation) (nc : SavedConversation)
    (tid : String) (hid : nc.id = tid) :
    storeIds (l.map fun convo => if convo.id == tid then nc else convo)
      = storeIds l := by
  apply storeIds_map_keep
  intro cv _
  by_cases hc : (cv.id == tid) = true
  · simp [hc, hid, beq_iff_eq.mp hc]
  · simp [hc]

/-- `saveConversation` preserves both store invariants when the fresh id does
not collide. -/
theorem saveConversation_invariants (s : AppState) (titleArg : String) (now : Nat)
    (freshId : String) (hA : atMostOneCurrent s.savedConversations)
    (hN : (storeIds s.savedConversations).Nodup)
    (hFresh : freshId ∉ storeIds s.savedConversations) :
    atMostOneCurrent (saveConversation s titleArg now freshId).savedConversations ∧
    (storeIds (saveConversation s titleArg now freshId).savedConversations).Nodup := by
  rcases ho : s.currentConversationId with _ | a <;>
    cases h0 : s.chatHistory.length == 0
  · -- no active id, non-empty history: insert at head
    constructor
    · have := List.countP_cons_of_neg (fun cv => currentFlag cv)
        (l := s.savedConversations)
        (a := ({ id := freshId, title := titleArg, messages := s.chatHistory,
                 timestamp := now, lastSaved := now,
                 isCurrent := none } : SavedConversation)) (by simp [currentFlag, boolTruthy])
      simpa [saveConversation, ho, h0, strTruthy, atMostOneCurrent, this] using hA
    · simp only [saveConversation, ho, h0, strTruthy]
      simpa [storeIds, List.nodup_cons] using ⟨by simpa [storeIds] using hFresh, hN⟩
  · simp [saveConversation, ho, h0]
    exact ⟨hA, hN⟩
  · -- active id present, non-empty history
    cases ha : a == ""
    · -- truthy id: replace in place
      constructor
      · refine le_trans ?_ hA
        simpa [saveConversation, ho, h0, ha, strTruthy, atMostOneCurrent] using
          countP_replace_le s.savedConversations _ (by simp [currentFlag, boolTruthy]) a
      · simp [saveConversation, ho, h0, ha, strTruthy]
        rw [storeIds_map_keep]
        · exact hN
        · intro cv _
          by_cases hc : cv.id = a <;> simp [hc]
    · -- the empty-string id is falsy: insert at head under the fresh id
      constructor
      · have := List.countP_cons_of_neg (fun cv => currentFlag cv)
          (l := s.savedConversations)
          (a := ({ id := freshId, title := titleArg, messages := s.chatHistory,
                   timestamp := now, lastSaved := now,
                   isCurrent := none } : SavedConversation)) (by simp [currentFlag, boolTruthy])
        simpa [saveConversation, ho, h0, ha, strTruthy, atMostOneCurrent, this] using hA
      · simp only [saveConversation, ho, h0, ha, strTruthy]
        simpa [storeIds, List.nodup_cons] using ⟨by simpa [storeIds] using hFresh, hN⟩
  · simp [saveConversation, ho, h0]
    exact ⟨hA, hN⟩

/-- After `handleNewChat` every stored conversation's current-marker is
cleared. -/
theorem handleNewChat_flags_false (s : AppState) (genTitle : String) (now : Nat)
    (newId : String) :
    ∀ cv ∈ (handleNewChat s genTitle now newId).savedConversations,
      currentFlag cv = false := by
  intro cv hcv
  simp only [handleNewChat] at hcv
  split at hcv
  · split at hcv
    · -- update-in-place branch
      obtain ⟨x, hx, rfl⟩ := List.mem_map.mp hcv
      obtain ⟨y, _, rfl⟩ := List.mem_map.mp hx
      split <;> rfl
    · -- insert-and-sort branch
      simp only [sortConversationsByTimestamp] at hcv
      have hcv2 := (List.mergeSort_perm _ _).mem_iff.mp hcv
      rcases List.mem_cons.mp hcv2 with rfl | hmem
      · rfl
      · obtain ⟨x, hx, rfl⟩ := List.mem_map.mp (List.mem_of_mem_filter hmem)
        rfl
  · -- empty-history branch
    obtain ⟨x, hx, rfl⟩ := List.mem_map.mp hcv
    rfl

/-- Clearing every current-marker keeps the stored ids. -/
theorem storeIds_setFalse (l : List SavedConversation) :
    storeIds (l.map (fun (convo : SavedConversation) =>
      { convo with isCurrent := some false })) = storeIds l :=
  storeIds_map_keep _ _ (fun cv _ => rfl)

/-- The update-in-place map of `handleNewChat` keeps the stored ids. -/
theorem storeIds_updateHist (l : List SavedConversation) (oldId : Option String)
    (hist : List Message) (now : Nat) :
    storeIds (l.map (fun (convo : SavedConversation) =>
      if some convo.id == oldId then
        { convo with messages := hist, timestamp := now, lastSaved := now }
      else convo)) = storeIds l :=
  storeIds_map_keep _ _ (fun cv _ => by split <;> rfl)

/-- `handleNewChat` preserves duplicate-freeness of the stored ids when the
fresh id does not collide. -/
theorem handleNewChat_ids_nodup (s : AppState) (genTitle : String) (now : Nat)
    (newId : String) (hN : (storeIds s.savedConversations).Nodup) :
    (storeIds (handleNewChat s genTitle now newId).savedConversations).Nodup := by
  simp only [handleNewChat]
  split
  · split
    · -- update-in-place branch: ids kept twice
      dsimp only
      rw [storeIds_updateHist, storeIds_setFalse]
      exact hN
    · -- insert-and-sort branch
      dsimp only
      simp only [sortConversationsByTimestamp, storeIds]
      refine (((List.mergeSort_perm _ _).map _).nodup_iff).mpr ?_
      rw [List.map_cons]
      refine List.nodup_cons.mpr ⟨?_, ?_⟩
      · intro hmem
        obtain ⟨x, hx, hxid⟩ := List.mem_map.mp hmem
        have h2 := (List.mem_filter.mp hx).2
        rw [hxid] at h2
        simp at h2
      · refine List.Nodup.sublist ((List.filter_sublist _).map _) ?_
        show (storeIds (s.savedConversations.map
          (fun (convo : SavedConversation) => { convo with isCurrent := some false }))).Nodup
        rw [storeIds_setFalse]
        exact hN
  · -- empty-history branch: ids kept twice
    dsimp only
    rw [storeIds_setFalse, storeIds_setFalse]
    exact hN

/-- `handleLoadConversation` keeps at most one current-marker set. -/
theorem handleLoadConversation_atMostOne (s : AppState) (c : SavedConversation)
    (hA : atMostOneCurrent s.savedConversations)
    (hN : (storeIds s.savedConversations).Nodup) :
    atMostOneCurrent (handleLoadConversation s c).savedConversations := by
  simp only [handleLoadConversation]
  split
  · exact countP_currentize_le_one s.savedConversations c.id hN
  · exact hA

/-- `handleLoadConversation` keeps the stored ids unchanged. -/
theorem handleLoadConversation_ids (s : AppState) (c : SavedConversation) :
    storeIds (handleLoadConversation s c).savedConversations
      = storeIds s.savedConversations := by
  simp only [handleLoadConversation]
  split
  · rw [storeIds_map_keep]
    intro cv _; rfl
  · rfl

/-- `handleDeleteConversation` keeps at most one current-marker set. -/
theorem handleDeleteConversation_atMostOne (s : AppState) (delId : String)
    (hA : atMostOneCurrent s.savedConversations) :
    atMostOneCurrent (handleDeleteConversation s delId).savedConversations := by
  simp only [handleDeleteConversation]
  split <;> exact le_trans (countP_filter_le _ _ _) hA

/-- `handleDeleteConversation` preserves duplicate-freeness of the stored
ids. -/
theorem handleDeleteConversation_ids_nodup (s : AppState) (delId : String)
    (hN : (storeIds s.savedConversations).Nodup) :
    (storeIds (handleDeleteConversation s delId).savedConversations).Nodup := by
  simp only [handleDeleteConversation]
  split <;> exact hN.sublist ((List.filter_sublist _).map _)

/-- `restoreOnStartup` keeps at most one current-marker set. -/
theorem restoreOnStartup_atMostOne (s : AppState)
    (hA : atMostOneCurrent s.savedConversations)
    (hN : (storeIds s.savedConversations).Nodup) :
    atMostOneCurrent (restoreOnStartup s).savedConversations := by
  simp only [restoreOnStartup]
  split
  · split
    · exact countP_currentize_le_one _ _ hN
    · exact hA
  · exact hA

/-- `restoreOnStartup` keeps the stored ids unchanged. -/
theorem restoreOnStartup_ids (s : AppState) :
    storeIds (restoreOnStartup s).savedConversations
      = storeIds s.savedConversations := by
  simp only [restoreOnStartup]
  split
  · split
    · exact storeIds_map_keep _ _ (fun cv _ => rfl)
    · rfl
  · rfl

/-- Loading a different conversation sets the current-marker exactly on the
loaded id and clears it on all others. -/
theorem handleLoadConversation_sets (s : AppState) (c : SavedConversation)
    (hne : s.currentConversationId ≠ some c.id) :
    ∀ cv ∈ (handleLoadConversation s c).savedConversations,
      currentFlag cv = (cv.id == c.id) := by
  intro cv hcv
  have hcond : some c.id ≠ s.currentConversationId := fun h => hne h.symm
  simp only [handleLoadConversation] at hcv
  rw [if_pos hcond] at hcv
  dsimp only at hcv
  obtain ⟨x, _, rfl⟩ := List.mem_map.mp hcv
  rfl

/-- Claim C5: each store-mutating operation — load/switch (both directly and
through the commit-before-switch handler), new chat, startup restore, delete,
save — keeps at most one stored conversation marked current; loading a
conversation different from the active one sets the marker exactly on the
loaded id and clears it on all others; and a new chat clears it on all. -/
theorem single_current_invariant (s : AppState) (c : SavedConversation)
    (delId titleArg genTitle : String) (now : Nat) (freshId : String)
    (hA : atMostOneCurrent s.savedConversations)
    (hN : (storeIds s.savedConversations).Nodup)
    (hFresh : freshId ∉ storeIds s.savedConversations) :
    atMostOneCurrent (handleLoadConversation s c).savedConversations ∧
    (s.currentConversationId ≠ some c.id →
      ∀ cv ∈ (handleLoadConversation s c).savedConversations,
        currentFlag cv = (cv.id == c.id)) ∧
    atMostOneCurrent (handleClickConversation s c now freshId).savedConversations ∧
    (∀ cv ∈ (handleNewChat s genTitle now freshId).savedConversations,
      currentFlag cv = false) ∧
    atMostOneCurrent (handleNewChat s genTitle now freshId).savedConversations ∧
    atMostOneCurrent (restoreOnStartup s).savedConversations ∧
    atMostOneCurrent (handleDeleteConversation s delId).savedConversations ∧
    atMostOneCurrent (saveConversation s titleArg now freshId).savedConversations := by
  refine ⟨handleLoadConversation_atMostOne s c hA hN,
          fun hne => handleLoadConversation_sets s c hne,
          ?_,
          handleNewChat_flags_false s genTitle now freshId,
          ?_,
          restoreOnStartup_atMostOne s hA hN,
          handleDeleteConversation_atMostOne s delId hA,
          (saveConversation_invariants s titleArg now freshId hA hN hFresh).1⟩
  · simp only [handleClickConversation]
    split
    · split
      · split
        · exact handleLoadConversation_atMostOne _ c
            (saveConversation_invariants s (storeTitle s) now freshId hA hN hFresh).1
            (saveConversation_invariants s (storeTitle s) now freshId hA hN hFresh).2
        · exact handleLoadConversation_atMostOne _ c
            (saveConversation_invariants s s.currentTitle now freshId hA hN hFresh).1
            (saveConversation_invariants s s.currentTitle now freshId hA hN hFresh).2
      · exact handleLoadConversation_atMostOne s c hA hN
    · exact handleLoadConversation_atMostOne s c hA hN
  · have h0 : ((handleNewChat s genTitle now freshId).savedConversations).countP
        (fun cv => currentFlag cv) = 0 :=
      List.countP_eq_zero.mpr (by
        intro cv hcv
        simp [handleNewChat_flags_false s genTitle now freshId cv hcv])
    show ((handleNewChat s genTitle now freshId).savedConversations).countP
        (fun cv => currentFlag cv) ≤ 1
    omega

/-- A concrete store state: two saved conversations, the first active. -/
def twoConvState : AppState :=
  { currentConversationId := some "1",
    savedConversations :=
      [{ aperolConv with isCurrent := some true }, negroniConv] }

/-- Witness for `single_current_invariant`: loading the second conversation of
a concrete two-conversation store keeps at most one marker. -/
theorem single_current_invariant_witness :
    atMostOneCurrent (handleLoadConversation twoConvState negroniConv).savedConversations :=
  (single_current_invariant twoConvState negroniConv "2" "t" "g" 9 "99"
    (by decide) (by decide) (by decide)).1

/-- Claim C6: committing under an existing (truthy) id replaces that entry in
place, preserving every position (the id sequence is unchanged); committing
with no active id inserts a single new entry at the head under the fresh id;
and every operation — save, new-chat commit, delete, load and startup restore
(the `setCurrent` maps) — keeps the stored ids duplicate-free. -/
theorem id_uniqueness_invariant (s : AppState) (c : SavedConversation)
    (delId titleArg genTitle : String) (now : Nat) (freshId : String)
    (hA : atMostOneCurrent s.savedConversations)
    (hN : (storeIds s.savedConversations).Nodup)
    (hFresh : freshId ∉ storeIds s.savedConversations) :
    (∀ a, s.currentConversationId = some a → a ≠ "" →
      storeIds (saveConversation s titleArg now freshId).savedConversations
        = storeIds s.savedConversations) ∧
    (s.currentConversationId = none → s.chatHistory ≠ [] →
      storeIds (saveConversation s titleArg now freshId).savedConversations
        = freshId :: storeIds s.savedConversations) ∧
    (storeIds (saveConversation s titleArg now freshId).savedConversations).Nodup ∧
    (storeIds (handleNewChat s genTitle now freshId).savedConversations).Nodup ∧
    (storeIds (handleDeleteConversation s delId).savedConversations).Nodup ∧
    (storeIds (handleLoadConversation s c).savedConversations).Nodup ∧
    (storeIds (restoreOnStartup s).savedConversations).Nodup := by
  refine ⟨?_, ?_,
          (saveConversation_invariants s titleArg now freshId hA hN hFresh).2,
          handleNewChat_ids_nodup s genTitle now freshId hN,
          handleDeleteConversation_ids_nodup s delId hN,
          ?_, ?_⟩
  · intro a ho ha
    have ha' : (a == "") = false := beq_eq_false_iff_ne.mpr ha
    cases h0 : s.chatHistory.length == 0
    · simp [saveConversation, ho, h0, ha', strTruthy]
      rw [storeIds_map_keep]
      intro cv _
      by_cases hc : cv.id = a <;> simp [hc]
    · simp [saveConversation, h0]
  · intro ho hne
    have h0 : (s.chatHistory.length == 0) = false :=
      beq_eq_false_iff_ne.mpr (by simpa [List.length_eq_zero] using hne)
    simp [saveConversation, ho, h0, strTruthy, storeIds]
  · rw [handleLoadConversation_ids]
    exact hN
  · rw [restoreOnStartup_ids]
    exact hN

/-- Witness for `id_uniqueness_invariant`: committing the active conversation
of the concrete store keeps the id sequence unchanged. -/
theorem id_uniqueness_invariant_witness :
    storeIds (saveConversation { twoConvState with
      chatHistory := [mkUserMessage "hi" "7" 0] } "t" 9 "99").savedConversations
      = storeIds ({ twoConvState with
          chatHistory := [mkUserMessage "hi" "7" 0] } : AppState).savedConversations :=
  (id_uniqueness_invariant { twoConvState with chatHistory := [mkUserMessage "hi" "7" 0] }
    negroniConv "2" "t" "g" 9 "99" (by decide) (by decide) (by decide)).1
    "1" (by decide) (by decide)

/-! ## Commit-before-switch: claim C1 -/

/-- After replacing the entries with id `a` and then re-marking the current
conversation, the entry found under `a` is the replacement. -/
theorem find_replace_currentize (l : List SavedConversation) (a tid : String)
    (nc : SavedConversation) (hid : nc.id = a)
    (hmem : ∃ e ∈ l, e.id = a) :
    ((l.map (fun convo => if convo.id == a then nc else convo)).map
        (fun convo => { convo with isCurrent := some (convo.id == tid) })).find?
      (fun convo => convo.id == a)
      = some { nc with isCurrent := some (nc.id == tid) } := by
  induction l with
  | nil =>
      obtain ⟨e, he, _⟩ := hmem
      exact absurd he (List.not_mem_nil e)
  | cons x xs ih =>
      by_cases hx : (x.id == a) = true
      · simp only [List.map_cons, hx, if_true]
        rw [List.find?_cons_of_pos]
        simpa using hid
      · simp only [List.map_cons, hx, if_false]
        rw [List.find?_cons_of_neg]
        · apply ih
          obtain ⟨e, he, heid⟩ := hmem
          rcases List.mem_cons.mp he with rfl | he2
          · exact absurd (beq_iff_eq.mpr heid) (by simpa using hx)
          · exact ⟨e, he2, heid⟩
        · simpa using hx

/-- `handleLoadConversation` never changes any stored entry's data — id,
title, messages, timestamp and last-saved time are all kept (only the
current-marker moves). -/
theorem handleLoadConversation_content (s : AppState) (c : SavedConversation) :
    (handleLoadConversation s c).savedConversations.map
        (fun convo => (convo.id, convo.title, convo.messages, convo.timestamp,
          convo.lastSaved))
      = s.savedConversations.map
        (fun convo => (convo.id, convo.title, convo.messages, convo.timestamp,
          convo.lastSaved)) := by
  simp only [handleLoadConversation]
  split
  · dsimp only
    rw [List.map_map]
    rfl
  · rfl

/-- Loading a conversation different from the active one installs its
messages and id as the active session. -/
theorem handleLoadConversation_loads (s : AppState) (c : SavedConversation)
    (h : s.currentConversationId ≠ some c.id) :
    (handleLoadConversation s c).chatHistory = c.messages ∧
    (handleLoadConversation s c).currentConversationId = some c.id := by
  simp only [handleLoadConversation]
  rw [if_pos (fun hh => h hh.symm)]
  exact ⟨rfl, rfl⟩

/-- The active id after `saveConversation` still differs from `tid` when it
did before, the fresh id differs from `tid`, and the active id is not the
falsy empty string. -/
theorem saveConversation_currentId_ne (s : AppState) (titleArg : String)
    (now : Nat) (freshId : String) (tid : String)
    (hs : s.currentConversationId ≠ some tid)
    (hf : freshId ≠ tid)
    (hii : ∀ i, s.currentConversationId = some i → i ≠ "") :
    (saveConversation s titleArg now freshId).currentConversationId ≠ some tid := by
  cases h0 : s.chatHistory.length == 0
  · rcases ho : s.currentConversationId with _ | a
    · simpa [saveConversation, ho, h0, strTruthy] using hf
    · have ha' : (a == "") = false := beq_eq_false_iff_ne.mpr (hii a ho)
      simp only [saveConversation, ho, h0, ha', strTruthy]
      intro hEq
      exact hs (by rw [ho]; simpa using hEq)
  · simpa [saveConversation, h0] using hs

/-- `saveConversation` under a truthy active id: replace in place. -/
theorem saveConversation_replace (s : AppState) (titleArg : String) (now : Nat)
    (freshId : String) (a : String) (ho : s.currentConversationId = some a)
    (ha : a ≠ "") (hne : s.chatHistory ≠ []) :
    saveConversation s titleArg now freshId =
      { s with
        savedConversations := s.savedConversations.map (fun convo =>
          if convo.id == a then
            { id := a, title := titleArg, messages := s.chatHistory,
              timestamp := now, lastSaved := now, isCurrent := none }
          else convo),
        currentConversationId := some a } := by
  have h0 : (s.chatHistory.length == 0) = false :=
    beq_eq_false_iff_ne.mpr (by simpa [List.length_eq_zero] using hne)
  have ha' : (a == "") = false := beq_eq_false_iff_ne.mpr ha
  simp [saveConversation, ho, h0, ha', strTruthy]

/-- `saveConversation` with no active id: insert at the head under the fresh
id. -/
theorem saveConversation_insert (s : AppState) (titleArg : String) (now : Nat)
    (freshId : String) (ho : s.currentConversationId = none)
    (hne : s.chatHistory ≠ []) :
    saveConversation s titleArg now freshId =
      { s with
        savedConversations :=
          ({ id := freshId, title := titleArg, messages := s.chatHistory,
             timestamp := now, lastSaved := now, isCurrent := none }
            : SavedConversation) :: s.savedConversations,
        currentConversationId := some freshId } := by
  have h0 : (s.chatHistory.length == 0) = false :=
    beq_eq_false_iff_ne.mpr (by simpa [List.length_eq_zero] using hne)
  simp [saveConversation, ho, h0, strTruthy]

/-- The explicit result of loading a conversation different from the active
one. -/
theorem handleLoadConversation_eq (s : AppState) (c : SavedConversation)
    (h : s.currentConversationId ≠ some c.id) :
    handleLoadConversation s c =
      { s with
        chatHistory := c.messages,
        currentConversationId := some c.id,
        savedConversations := s.savedConversations.map (fun convo =>
          { convo with isCurrent := some (convo.id == c.id) }) } := by
  simp only [handleLoadConversation]
  rw [if_pos (fun hh => h hh.symm)]

/-- Claim C1: switching to a different conversation commits first exactly when
the active message list is non-empty and strictly longer than the message
count stored under the active id (0 when the active id is null).  In the
strictly-greater case the store entry under the committed id — the active id,
or the fresh id for a null active id — holds the grown message list and a
fresh last-saved time after the switch; in the equal-or-fewer case no commit
happens and every stored entry's id, title, messages, timestamp and lastSaved
are unchanged by the switch.  In both cases the target's messages and id
become the active session. -/
theorem commit_before_switch (s : AppState) (c : SavedConversation)
    (now : Nat) (freshId : String)
    (htarget : s.currentConversationId ≠ some c.id)
    (hactive : ∀ a, s.currentConversationId = some a →
      a ≠ "" ∧ ∃ e ∈ s.savedConversations, e.id = a)
    (hfresh : ∀ e ∈ s.savedConversations, e.id ≠ freshId)
    (hcmem : c ∈ s.savedConversations) :
    (s.chatHistory.length > storedCount s →
      ∀ a, s.currentConversationId = some a →
        (((handleClickConversation s c now freshId).savedConversations.find?
            (fun convo => convo.id == a)).map
          (fun convo => (convo.messages, convo.lastSaved)))
          = some (s.chatHistory, now)) ∧
    (s.chatHistory.length > storedCount s → s.currentConversationId = none →
      (((handleClickConversation s c now freshId).savedConversations.find?
          (fun convo => convo.id == freshId)).map
        (fun convo => (convo.messages, convo.lastSaved)))
        = some (s.chatHistory, now)) ∧
    (s.chatHistory.length ≤ storedCount s →
      (handleClickConversation s c now freshId).savedConversations.map
          (fun convo => (convo.id, convo.title, convo.messages, convo.timestamp,
            convo.lastSaved))
        = s.savedConversations.map
          (fun convo => (convo.id, convo.title, convo.messages, convo.timestamp,
            convo.lastSaved))) ∧
    (handleClickConversation s c now freshId).chatHistory = c.messages ∧
    (handleClickConversation s c now freshId).currentConversationId = some c.id := by
  have hcid : c.id ≠ freshId := hfresh c hcmem
  have key : ∃ s1 : AppState, handleClickConversation s c now freshId
      = handleLoadConversation s1 c ∧ s1.currentConversationId ≠ some c.id := by
    simp only [handleClickConversation]
    by_cases houter : s.chatHistory.length > 0 ∧ s.chatHistory.length > windowLength ∧
        s.currentConversationId ≠ some c.id
    · by_cases hgt : s.chatHistory.length > storedCount s
      · rw [if_pos houter, if_pos hgt]
        refine ⟨_, rfl, ?_⟩
        rcases ho : s.currentConversationId with _ | a <;> dsimp only
        · exact saveConversation_currentId_ne s s.currentTitle now freshId c.id
            htarget (fun hEq => hcid hEq.symm) (fun i hi => (hactive i hi).1)
        · exact saveConversation_currentId_ne s (storeTitle s) now freshId c.id
            htarget (fun hEq => hcid hEq.symm) (fun i hi => (hactive i hi).1)
      · rw [if_pos houter, if_neg hgt]
        exact ⟨s, rfl, htarget⟩
    · rw [if_neg houter]
      exact ⟨s, rfl, htarget⟩
  refine ⟨?_, ?_, ?_, ?_, ?_⟩
  · intro hgt a ho
    obtain ⟨ha, e, he, heid⟩ := hactive a ho
    have hpos : 0 < s.chatHistory.length := Nat.lt_of_le_of_lt (Nat.zero_le _) hgt
    have hne : s.chatHistory ≠ [] := by
      intro hnil; rw [hnil] at hpos; exact absurd hpos (by simp)
    have houter : s.chatHistory.length > 0 ∧ s.chatHistory.length > windowLength ∧
        s.currentConversationId ≠ some c.id :=
      ⟨hpos, by simpa [windowLength] using hpos, htarget⟩
    have e1 : handleClickConversation s c now freshId
        = handleLoadConversation (saveConversation s (storeTitle s) now freshId) c := by
      simp only [handleClickConversation]
      rw [if_pos houter, if_pos hgt, ho]
    rw [e1, saveConversation_replace s (storeTitle s) now freshId a ho ha hne,
        handleLoadConversation_eq _ c (fun hh => htarget (ho.trans hh))]
    dsimp only
    rw [find_replace_currentize s.savedConversations a c.id _ rfl ⟨e, he, heid⟩]
    rfl
  · intro hgt ho
    have hpos : 0 < s.chatHistory.length := Nat.lt_of_le_of_lt (Nat.zero_le _) hgt
    have hne : s.chatHistory ≠ [] := by
      intro hnil; rw [hnil] at hpos; exact absurd hpos (by simp)
    have houter : s.chatHistory.length > 0 ∧ s.chatHistory.length > windowLength ∧
        s.currentConversationId ≠ some c.id :=
      ⟨hpos, by simpa [windowLength] using hpos, htarget⟩
    have e1 : handleClickConversation s c now freshId
        = handleLoadConversation (saveConversation s s.currentTitle now freshId) c := by
      simp only [handleClickConversation]
      rw [if_pos houter, if_pos hgt, ho]
    rw [e1, saveConversation_insert s s.currentTitle now freshId ho hne,
        handleLoadConversation_eq _ c (fun hh => hcid (Option.some.inj hh).symm)]
    dsimp only
    rw [List.map_cons, List.find?_cons_of_pos _ (by simp)]
    rfl
  · intro hle
    have hngt : ¬ s.chatHistory.length > storedCount s := not_lt.mpr hle
    have e1 : handleClickConversation s c now freshId = handleLoadConversation s c := by
      simp only [handleClickConversation]
      by_cases houter : s.chatHistory.length > 0 ∧ s.chatHistory.length > windowLength ∧
          s.currentConversationId ≠ some c.id
      · rw [if_pos houter, if_neg hngt]
      · rw [if_neg houter]
    rw [e1]
    exact handleLoadConversation_content s c
  · obtain ⟨s1, he1, hs1⟩ := key
    rw [he1]
    exact (handleLoadConversation_loads s1 c hs1).1
  · obtain ⟨s1, he1, hs1⟩ := key
    rw [he1]
    exact (handleLoadConversation_loads s1 c hs1).2

/-- A short test message. -/
def mWit (i : Nat) : Message := mkUserMessage ("q" ++ toString i) (toString i) 0

/-- The stored copy of the active conversation, saved with one message. -/
def clickStoredConv : SavedConversation :=
  { aperolConv with isCurrent := some true, messages := [mWit 1] }

/-- A state with an active 3-message session whose stored copy has 1
message. -/
def clickState : AppState :=
  { currentConversationId := some "1",
    chatHistory := [mWit 1, mWit 2, mWit 3],
    savedConversations := [clickStoredConv, negroniConv] }

/-- Witness for `commit_before_switch`: the spec's 3-vs-1 scenario — after
switching away, the store entry for the active id holds the 3 grown
messages. -/
theorem commit_before_switch_witness :
    (((handleClickConversation clickState negroniConv 9 "99").savedConversations.find?
        (fun convo => convo.id == "1")).map
      (fun convo => (convo.messages, convo.lastSaved)))
      = some (clickState.chatHistory, 9) :=
  (commit_before_switch clickState negroniConv 9 "99" (by decide)
    (fun a ha => by
      obtain rfl : "1" = a := Option.some.inj ha
      exact ⟨by decide, ⟨clickStoredConv, by decide, by decide⟩⟩)
    (by decide) (by decide)).1 (by decide) "1" rfl

/-! ## Durable snapshot round trip: claim C7 -/

/-- What a `timestamp` field becomes across `JSON.stringify`/`JSON.parse`: a
`Date` turns into its serialized string, a string survives unchanged. -/
def jsonTimeVal (iso : Nat → String) : TimeVal → TimeVal
  | .date ms => .str (iso ms)
  | .str s => .str s

/-- One message decodes back from its encoding with every field intact except
the timestamp, which comes back in its JSON string form. -/
theorem decode_encode_message (iso : Nat → String) (m : Message) :
    decodeMessage (encodeMessage iso m)
      = { m with timestamp := jsonTimeVal iso m.timestamp } := by
  rcases m with ⟨mid, q, ans, img, ts, role, msc, conf, likes, dislikes, liked, disliked⟩
  rcases likes with _ | n <;> rcases dislikes with _ | n2 <;>
    rcases liked with _ | b <;> rcases disliked with _ | b2 <;>
      rcases ts with ms' | st <;>
        simp +decide [decodeMessage, encodeMessage, jsonGet, jsonStr, encTime,
          jsonTimeVal]

/-- A one-message session with an active id, about to be snapshotted. -/
def snapState : AppState :=
  { chatHistory := [mWit 1], currentConversationId := some "1" }

/-- The fresh startup state (all `useState` initial values). -/
def initState : AppState := {}

/-- Claim C7 counterexample: snapshot-then-restore does not yield an identical
message list — whatever string the serializer renders a `Date` as, the
restored first message's `timestamp` field is that string, not the original
`Date`, so no serialization makes the restored list equal to the original. -/
theorem snapshot_roundtrip_cex :
    ¬ ∃ iso : Nat → String,
      (restoreFromStorage (saveStateBeforeUnload iso snapState) initState).chatHistory
        = snapState.chatHistory := by
  rintro ⟨iso, h⟩
  simp +decide [restoreFromStorage, saveStateBeforeUnload, decode_encode_message,
    snapState, initState, mWit, mkUserMessage, jsonTimeVal] at h

/-- The restored message list is the decoded stored array, whatever the
stored id key holds. -/
theorem restore_chatHistory (store : DurableStorage) (s0 : AppState)
    (js : List Json) (h : store.currentChatHistory = some js) :
    (restoreFromStorage store s0).chatHistory = js.map decodeMessage := by
  rcases store with ⟨hist, cid⟩
  cases h
  rcases cid with _ | c
  · rfl
  · simp only [restoreFromStorage]
    split <;> rfl

/-- The restored active id: the stored key when truthy and not the sentinel,
else the startup value. -/
theorem restore_currentId (store : DurableStorage) (s0 : AppState) (c : String)
    (h : store.currentConversationId = some c) :
    (restoreFromStorage store s0).currentConversationId
      = if !(c == "") && !(c == "null") then some c
        else s0.currentConversationId := by
  rcases store with ⟨hist, cid⟩
  cases h
  rcases hist with _ | js <;>
    · simp only [restoreFromStorage]
      split <;> simp_all

/-- Claim C7 (amended): restoring the snapshot onto the fresh startup state
yields the same active conversation id (null restored as null via the
`'null'` sentinel) and a message list of the same length and order whose
messages agree with the originals on every field except `timestamp`, which is
restored as the JSON string form of the original. -/
theorem snapshot_roundtrip_amended (iso : Nat → String) (s s0 : AppState)
    (hs0 : s0.currentConversationId = none)
    (hid : s.currentConversationId ≠ some "")
    (hid2 : s.currentConversationId ≠ some "null") :
    (restoreFromStorage (saveStateBeforeUnload iso s) s0).chatHistory
      = s.chatHistory.map
          (fun m => { m with timestamp := jsonTimeVal iso m.timestamp }) ∧
    (restoreFromStorage (saveStateBeforeUnload iso s) s0).currentConversationId
      = s.currentConversationId := by
  constructor
  · rw [restore_chatHistory _ _ (s.chatHistory.map (encodeMessage iso)) rfl,
        List.map_map]
    exact List.map_congr_left (fun m _ => decode_encode_message iso m)
  · rcases ho : s.currentConversationId with _ | i
    · rw [restore_currentId _ _ "null"
        (by simp [saveStateBeforeUnload, ho])]
      simp [hs0]
    · have hb1 : (i == "") = false :=
        beq_eq_false_iff_ne.mpr (fun hEq => hid (by rw [ho, hEq]))
      have hb2 : (i == "null") = false :=
        beq_eq_false_iff_ne.mpr (fun hEq => hid2 (by rw [ho, hEq]))
      rw [restore_currentId _ _ i
        (by simp [saveStateBeforeUnload, ho, hb1])]
      simp [hb1, hb2]

/-- Witness for `snapshot_roundtrip_amended`: a concrete snapshot restores the
active id exactly. -/
theorem snapshot_roundtrip_amended_witness :
    (restoreFromStorage (saveStateBeforeUnload (fun n => toString n) snapState)
        initState).currentConversationId
      = snapState.currentConversationId :=
  (snapshot_roundtrip_amended (fun n => toString n) snapState initState
    rfl (by decide) (by decide)).2

end PosmChat
